import Mathlib

/-!
Verification of the `storage-traits` crate: a shallow embedding of its byte
codec (`src/bytes.rs`), the `Storage` trait's default method bodies
(`src/storage.rs`), and the `FileBackedStorage` adapter (`src/lib.rs`),
together with theorems settling the specification's claims about them.

Modelling conventions:
* `usize` is 64 bits (the hosted targets the crate's `std` feature serves);
  unchecked Rust arithmetic is modelled with release-profile wrapping
  semantics, i.e. explicit `% 2 ^ 64`.  Rust's `checked_mul`/`unwrap`
  pattern is modelled as an explicit overflow test whose failure branch is
  a distinct `panicked` outcome (as is a failed `assert_eq!`).
* Bytes are `Nat`s (< 256 wherever they come from the encoder); files are
  `List Nat` of bytes with sparse-file semantics (seeking past the end and
  writing extends the file with zero bytes, which is what `File::set_len`
  and out-of-range `Seek`/`write` do on the hosted targets).
* Operating-system failures (opening a missing file, `create_new` on an
  existing file, I/O errors) are outside the model; the arithmetic, the
  bounds checks and the data layout — which is what the claims are about —
  are modelled exactly as written in the source.
-/

namespace StorageTraits

/-- The modulus of `usize` arithmetic on the 64-bit targets modelled here. -/
def U : Nat := 2 ^ 64

/-! ## Byte codec (`src/bytes.rs`)

`AsBytes` is implemented for the unsigned integer types by
`impl_from_bytes!`: `to` is `to_le_bytes`, `from` checks
`bytes.len() < Self::NUM_BYTES`, splits off `NUM_BYTES` bytes and decodes
them with `from_le_bytes`.  We model a `w`-byte unsigned word as a
`Nat < 256 ^ w` and the codec generically in the width `w`. -/

/-- `v.to_le_bytes()` for a `w`-byte word: the little-endian byte list of
length `w` (low byte first). -/
def toLeBytes : Nat → Nat → List Nat
  | 0, _ => []
  | w + 1, v => v % 256 :: toLeBytes w (v / 256)

/-- `Self::from_le_bytes` on a little-endian byte list: the value it
denotes (low byte first). -/
def leVal : List Nat → Nat
  | [] => 0
  | b :: bs => b + 256 * leVal bs

/-- `<$ty as AsBytes>::from(bytes)` for a `w`-byte word type
(`src/bytes.rs` lines 48–60): `None` when fewer than `NUM_BYTES` bytes are
given, otherwise the decoded first `w` bytes paired with the rest. -/
def fromBytes (w : Nat) (bytes : List Nat) : Option (Nat × List Nat) :=
  if bytes.length < w then
    none
  else
    some (leVal (bytes.take w), bytes.drop w)

/-! ## Error taxonomy (`src/errors.rs`) -/

/-- `errors::ReadError<E>`: the read-side error family. -/
inductive ReadError (E : Type) where
  | Uninitialized (offset : Nat)
  | OutOfRange (requested_offset max_offset : Nat)
  | Other (e : E)
deriving DecidableEq

/-- `errors::WriteError<E>`: the write-side error family. -/
inductive WriteError (E : Type) where
  | OutOfRange (requested_offset max_offset : Nat)
  | InvalidNumberOfBytes (bytes_given bytes_in_a_sector : Nat)
  | InvalidNumberOfWords (words_given words_in_a_sector : Nat)
  | Other (e : E)
deriving DecidableEq

/-! ## The `Storage` trait (`src/storage.rs`)

An implementor of `Storage` is modelled by the data its default methods
consume: the `capacity()` accessor (a `usize`, in sectors), the value of
`SECTOR_SIZE::to_usize()` (in words), and the required `read_word`
method.  The default bodies of `capacity_in_words`, `capacity_in_bytes`,
`read_words` and `read_sector` are then translated verbatim, with
unchecked `usize` arithmetic modelled as wrapping (`% U`, the
release-profile semantics). -/

/-- The data of an implementor of the `Storage` trait, as seen by the
trait's default method bodies.  `read_word` is pure: reads do not mutate
the medium (`&self` receiver in the source). -/
structure Storage (W E : Type) where
  capacity : Nat
  sector_size : Nat
  read_word : Nat → Except (ReadError E) W

/-- Default body of `Storage::capacity_in_words`
(`src/storage.rs` line 64): `self.capacity() * Self::SECTOR_SIZE::to_usize()`,
an unchecked `usize` multiply. -/
def Storage.capacity_in_words {W E : Type} (s : Storage W E) : Nat :=
  s.capacity * s.sector_size % U

/-- Default body of `Storage::capacity_in_bytes`
(`src/storage.rs` line 69): `self.capacity_in_words() * Word::NUM_BYTES`,
an unchecked `usize` multiply; `num_bytes` is `Word::NUM_BYTES`. -/
def Storage.capacity_in_bytes {W E : Type} (s : Storage W E) (num_bytes : Nat) : Nat :=
  s.capacity_in_words * num_bytes % U

/-- The `max_offset` computation of the default `read_words`
(`src/storage.rs` line 101): `word_offset + (buffer.len() - 1)` in
`usize`.  With a zero-length buffer the subtraction underflows; modelled
(for `len < U`, as every Rust slice length is) with wrapping semantics:
`len - 1` becomes `(len + (U - 1)) % U` and the addition also wraps. -/
def Storage.max_off (word_offset len : Nat) : Nat :=
  (word_offset + (len + (U - 1)) % U) % U

/-- The `for (idx, word) in buffer.iter_mut().enumerate()` loop of the
default `read_words` (`src/storage.rs` lines 109–111): each slot is
overwritten with `read_word(word_offset + idx)?` in increasing index
order; the first failing read propagates its error, leaving the rest of
the buffer untouched.  Returns the operation result together with the
final contents of the caller's buffer. -/
def Storage.read_words_loop {W E : Type} (s : Storage W E) (word_offset : Nat) :
    Nat → List W → Except (ReadError E) Unit × List W
  | _, [] => (Except.ok (), [])
  | idx, word :: rest =>
    match s.read_word ((word_offset + idx) % U) with
    | Except.error e => (Except.error e, word :: rest)
    | Except.ok v =>
      match s.read_words_loop word_offset (idx + 1) rest with
      | (r, out) => (r, v :: out)

/-- Default body of `Storage::read_words` (`src/storage.rs` lines
96–114): computes `max_offset`, rejects with
`OutOfRange { requested_offset: max_offset, max_offset: capacity_in_words() }`
when `max_offset >= capacity_in_words()` before touching the buffer, and
otherwise runs the word-by-word fill loop.  Returns the result paired
with the final contents of the caller's buffer. -/
def Storage.read_words {W E : Type} (s : Storage W E) (word_offset : Nat)
    (buffer : List W) : Except (ReadError E) Unit × List W :=
  if Storage.max_off word_offset buffer.length ≥ s.capacity_in_words then
    (Except.error (ReadError.OutOfRange (Storage.max_off word_offset buffer.length)
        s.capacity_in_words), buffer)
  else
    s.read_words_loop word_offset 0 buffer

/-- Default body of `Storage::read_sector` (`src/storage.rs` lines
126–135): delegates to `read_words` at word offset
`sector_idx * Self::SECTOR_SIZE::to_usize()` (unchecked multiply). -/
def Storage.read_sector {W E : Type} (s : Storage W E) (sector_idx : Nat)
    (buffer : List W) : Except (ReadError E) Unit × List W :=
  s.read_words (sector_idx * s.sector_size % U) buffer

/-! ## The file-backed adapter (`src/lib.rs`, `using_std!` block)

`FileBackedStorage<Word, SECTOR_SIZE>` holds an open file plus
`size_in_sectors`.  `w` stands for `Word::NUM_BYTES` and `S` for
`SECTOR_SIZE::to_usize()` throughout. -/

/-- The state of a `FileBackedStorage`: the backing file's bytes and the
`size_in_sectors` field recorded at construction. -/
structure FileBackedStorage where
  file : List Nat
  size_in_sectors : Nat
deriving DecidableEq

/-- The outcome of an operation that can also panic (a failed `unwrap` or
`assert_eq!` in the source aborts the program instead of returning). -/
inductive Outcome (ε α : Type) where
  | panicked
  | err (e : ε)
  | ok (a : α)
deriving DecidableEq

/-- The length passed to `file.set_len` by `FileBackedStorage::new`
(`src/lib.rs` lines 100–104):
`S::to_u64().checked_mul(size_in_sectors).unwrap()` — the sector count
times the sector size *in words*; `Word::NUM_BYTES` is not consulted.
`none` models the `unwrap` panic on overflow. -/
def new_len (S size_in_sectors : Nat) : Option Nat :=
  if S * size_in_sectors < U then some (S * size_in_sectors) else none

/-- `FileBackedStorage::new(path, size_in_sectors)` (`src/lib.rs` lines
91–111): creates the file and sizes it to `new_len` bytes (all zero —
`set_len` zero-fills).  `none` models the overflow panic; file-creation
errors are outside the model. -/
def FileBackedStorage.new (S size_in_sectors : Nat) : Option FileBackedStorage :=
  (new_len S size_in_sectors).map fun len =>
    { file := List.replicate len 0, size_in_sectors := size_in_sectors }

/-- The `io::Error` values produced by the constructors;
`invalidInput len S` carries the data interpolated into the
`ErrorKind::InvalidInput` message of `from_file`. -/
inductive IoErr where
  | invalidInput (len sector_size : Nat)
deriving DecidableEq

/-- `FileBackedStorage::from_file(path)` (`src/lib.rs` lines 115–141),
reduced to its length logic: with `len` the file's byte length, checks
`len.checked_rem(S::to_usize()) == Some(0)` (so `S = 0` also lands in the
error branch) and on success records
`size_in_sectors = len / S::to_usize()`; otherwise fails with an
`ErrorKind::InvalidInput` error.  Note the divisor is the sector size in
*words*, not `S * Word::NUM_BYTES`. -/
def FileBackedStorage.from_file (S len : Nat) : Except IoErr Nat :=
  if S ≠ 0 ∧ len % S = 0 then
    Except.ok (len / S)
  else
    Except.error (IoErr.invalidInput len S)

/-- `FileBackedStorage::from_file_with_explicit_size(path, size_in_sectors)`
(`src/lib.rs` lines 144–149): runs `from_file` (propagating its error with
`?`) and then overwrites the inferred `size_in_sectors` with the caller's
count. -/
def FileBackedStorage.from_file_with_explicit_size (S len size_in_sectors : Nat) :
    Except IoErr Nat :=
  match FileBackedStorage.from_file S len with
  | Except.error e => Except.error e
  | Except.ok _ => Except.ok size_in_sectors

/-- Writing `buf` into a file at byte position `pos` (a `Seek` followed by
`write`): bytes before `pos` are kept (zero-padding if the file was
shorter — sparse-file semantics), `buf` overwrites the next `buf.length`
bytes, and any bytes after that are kept. -/
def writeAt (file : List Nat) (pos : Nat) (buf : List Nat) : List Nat :=
  (file.take pos ++ List.replicate (pos - file.length) 0) ++
    (buf ++ file.drop (pos + buf.length))

/-- The serialization loop of `FileBackedStorage::write_sector`
(`src/lib.rs` lines 224–228): every word's `to()` bytes pushed in order
into one contiguous buffer. -/
def encode_words (w : Nat) : List Nat → List Nat
  | [] => []
  | v :: vs => toLeBytes w v ++ encode_words w vs

/-- The deserialization loop of `FileBackedStorage::read_sector`
(`src/lib.rs` lines 190–196): `count` words decoded in order via
`AsBytes::from(buf).unwrap()`, threading the remainder; `none` models the
`unwrap` panic. -/
def decode_loop (w : Nat) : Nat → List Nat → Option (List Nat)
  | 0, _ => some []
  | count + 1, bytes =>
    match fromBytes w bytes with
    | none => none
    | some (v, rest) => (decode_loop w count rest).map fun vs => v :: vs

/-- `<FileBackedStorage as Storage>::write_sector` (`src/lib.rs` lines
201–236): bounds-checks `sector_idx` against `size_in_sectors`, seeks to
`sector_idx.checked_mul(S::to_usize()).unwrap()` (note: sector size in
*words*, and a panic on overflow), serializes the words into one buffer,
asserts the buffer is `S * w` bytes, and writes it in one bulk write. -/
def FileBackedStorage.write_sector (w S : Nat) (st : FileBackedStorage)
    (sector_idx : Nat) (words : List Nat) :
    Outcome (WriteError IoErr) FileBackedStorage :=
  if sector_idx ≥ st.size_in_sectors then
    Outcome.err (WriteError.OutOfRange sector_idx st.size_in_sectors)
  else if sector_idx * S < U then
    if (encode_words w words).length = S * w then
      Outcome.ok { file := writeAt st.file (sector_idx * S) (encode_words w words),
                   size_in_sectors := st.size_in_sectors }
    else
      Outcome.panicked
  else
    Outcome.panicked

/-- `<FileBackedStorage as Storage>::read_sector` (`src/lib.rs` lines
163–199): bounds-checks `sector_idx`, seeks to
`sector_idx.checked_mul(S::to_usize()).unwrap()` (panic on overflow),
reads up to `S * w` bytes, asserts exactly `S * w` were read, and decodes
them word by word into the output buffer (returned here as the result
list). -/
def FileBackedStorage.read_sector (w S : Nat) (st : FileBackedStorage)
    (sector_idx : Nat) : Outcome (ReadError IoErr) (List Nat) :=
  if sector_idx ≥ st.size_in_sectors then
    Outcome.err (ReadError.OutOfRange sector_idx st.size_in_sectors)
  else if sector_idx * S < U then
    if ((st.file.drop (sector_idx * S)).take (S * w)).length = S * w then
      match decode_loop w S ((st.file.drop (sector_idx * S)).take (S * w)) with
      | some ws => Outcome.ok ws
      | none => Outcome.panicked
    else
      Outcome.panicked
  else
    Outcome.panicked

/-! ## Codec lemmas and the claims about `src/bytes.rs` -/

theorem toLeBytes_length (w v : Nat) : (toLeBytes w v).length = w := by
  induction w generalizing v with
  | zero => rfl
  | succ w ih => simp [toLeBytes, ih]

theorem leVal_toLeBytes {w v : Nat} (hv : v < 256 ^ w) :
    leVal (toLeBytes w v) = v := by
  induction w generalizing v with
  | zero => simp at hv; simp [hv, toLeBytes, leVal]
  | succ w ih =>
    have hdiv : v / 256 < 256 ^ w := by
      rw [Nat.div_lt_iff_lt_mul (by norm_num)]
      calc v < 256 ^ (w + 1) := hv
        _ = 256 ^ w * 256 := by ring
    simp [toLeBytes, leVal, ih hdiv, Nat.mod_add_div]

theorem fromBytes_toLeBytes_append {w v : Nat} (rest : List Nat)
    (hv : v < 256 ^ w) :
    fromBytes w (toLeBytes w v ++ rest) = some (v, rest) := by
  have hlen : (toLeBytes w v).length = w := toLeBytes_length w v
  unfold fromBytes
  rw [if_neg (by simp [hlen])]
  rw [List.take_left' hlen, List.drop_left' hlen, leVal_toLeBytes hv]

/-- C6: for every supported word width `w` (the crate implements `AsBytes`
for `u8`, `u16`, `u32`, `u64`, `u128` and `usize`, i.e. `w ∈ {1, 2, 4, 8,
16}`; the theorem holds for every width) and every representable value
`v < 256 ^ w`, decoding the encoding of `v` yields `v` with an empty
remainder: `AsBytes::from(AsBytes::to(v).as_ref()) == Some((v, &[]))`. -/
theorem as_bytes_round_trip (w v : Nat) (hv : v < 256 ^ w) :
    fromBytes w (toLeBytes w v) = some (v, []) := by
  have h := fromBytes_toLeBytes_append (w := w) (v := v) [] hv
  simpa using h

theorem as_bytes_round_trip_witness :
    fromBytes 8 (toLeBytes 8 234) = some (234, []) :=
  as_bytes_round_trip 8 234 (by norm_num)

/-- C7: for every word width `w` and every byte slice, `AsBytes::from`
returns `None` (without panicking — the model is total) when fewer than
`NUM_BYTES` bytes are given; otherwise it consumes exactly the first
`NUM_BYTES` bytes (decoding them little-endian) and returns the decoded
value together with the unconsumed remainder of the slice. -/
theorem from_bytes_length_contract (w : Nat) (bytes : List Nat) :
    (bytes.length < w → fromBytes w bytes = none) ∧
    (w ≤ bytes.length →
      fromBytes w bytes = some (leVal (bytes.take w), bytes.drop w)) := by
  constructor
  · intro h
    simp [fromBytes, h]
  · intro h
    simp [fromBytes, Nat.not_lt.mpr h]

theorem from_bytes_length_contract_witness :
    fromBytes 4 [1, 2] = none ∧
      fromBytes 2 [1, 2, 3] = some (leVal [1, 2], [3]) :=
  ⟨(from_bytes_length_contract 4 [1, 2]).1 (by norm_num),
   (from_bytes_length_contract 2 [1, 2, 3]).2 (by norm_num)⟩

/-! ## Lemmas about the default `read_words` loop and the claims about
`src/storage.rs` -/

theorem read_words_loop_ok {W E : Type} (s : Storage W E) (off : Nat) (v : Nat → W) :
    ∀ (buf : List W) (idx : Nat),
      (∀ j, j < buf.length → s.read_word ((off + (idx + j)) % U) = Except.ok (v (idx + j))) →
      s.read_words_loop off idx buf =
        (Except.ok (), (List.range buf.length).map fun j => v (idx + j)) := by
  intro buf
  induction buf with
  | nil => intro idx _; simp [Storage.read_words_loop]
  | cons hd tl ih =>
    intro idx h
    have h0 := h 0 (by simp)
    simp only [Nat.add_zero] at h0
    have hrec := ih (idx + 1) (by
      intro j hj
      have := h (j + 1) (by simp; omega)
      have harith : idx + (j + 1) = idx + 1 + j := by omega
      rwa [harith] at this)
    simp only [Storage.read_words_loop, h0, hrec]
    simp [List.range_succ_eq_map, List.map_map, Function.comp]
    intro a _
    congr 1
    omega

theorem read_words_loop_err {W E : Type} (s : Storage W E) (off : Nat)
    (v : Nat → W) (e : ReadError E) :
    ∀ (buf : List W) (idx k : Nat), k < buf.length →
      (∀ j, j < k → s.read_word ((off + (idx + j)) % U) = Except.ok (v (idx + j))) →
      s.read_word ((off + (idx + k)) % U) = Except.error e →
      s.read_words_loop off idx buf =
        (Except.error e, ((List.range k).map fun j => v (idx + j)) ++ buf.drop k) := by
  intro buf
  induction buf with
  | nil => intro idx k hk _ _; simp at hk
  | cons hd tl ih =>
    intro idx k hk hok herr
    match k with
    | 0 =>
      simp only [Nat.add_zero] at herr
      simp [Storage.read_words_loop, herr]
    | k' + 1 =>
      have h0 := hok 0 (by omega)
      simp only [Nat.add_zero] at h0
      have hrec := ih (idx + 1) k' (by simp at hk; omega)
        (by
          intro j hj
          have := hok (j + 1) (by omega)
          have harith : idx + (j + 1) = idx + 1 + j := by omega
          rwa [harith] at this)
        (by
          have harith : idx + (k' + 1) = idx + 1 + k' := by omega
          rwa [harith] at herr)
      simp only [Storage.read_words_loop, h0, hrec]
      simp [List.range_succ_eq_map, List.map_map, Function.comp]
      intro a _
      congr 1
      omega

/-- C1 (status: code bug in the source).  The default `read_words` has no
zero-length guard: `word_offset + (buffer.len() - 1)` underflows on an
empty buffer.  In a release build the subtraction wraps to `2 ^ 64 - 1`
(in a debug build the program panics outright), so at `word_offset = 0`
the call returns `Err(OutOfRange { requested_offset: 2 ^ 64 - 1, .. })` —
never the `Ok` the specification promises.  Evaluated here on a medium of
4 sectors of 512 words. -/
theorem read_words_empty_buffer_underflows :
    (Storage.read_words (⟨4, 512, fun _ => Except.ok 0⟩ : Storage Nat Unit) 0 [] =
      (Except.error (ReadError.OutOfRange (U - 1) 2048), [])) ∧
    ∀ r : List Nat,
      Storage.read_words (⟨4, 512, fun _ => Except.ok 0⟩ : Storage Nat Unit) 0 [] ≠
        (Except.ok (), r) := by
  have h1 : Storage.read_words (⟨4, 512, fun _ => Except.ok 0⟩ : Storage Nat Unit) 0 [] =
      (Except.error (ReadError.OutOfRange (U - 1) 2048), []) := rfl
  refine ⟨h1, ?_⟩
  intro r h
  have heq := congrArg Prod.fst (h1.symm.trans h)
  simp at heq

/-- C4: for every implementor using the default `read_words` and every
non-empty buffer: when the computed `max_offset` reaches
`capacity_in_words()` the call fails with
`OutOfRange { requested_offset: max_offset, max_offset: capacity_in_words() }`
and the buffer is returned exactly as it was (no element written);
otherwise, when every `read_word` succeeds, the buffer is filled
positionally with the words read at increasing offsets. -/
theorem read_words_bounds_check {W E : Type} (s : Storage W E) (off : Nat)
    (buf : List W) (hne : buf ≠ []) :
    (Storage.max_off off buf.length ≥ s.capacity_in_words →
      s.read_words off buf =
        (Except.error (ReadError.OutOfRange (Storage.max_off off buf.length)
          s.capacity_in_words), buf)) ∧
    (Storage.max_off off buf.length < s.capacity_in_words →
      ∀ v : Nat → W, (∀ j, j < buf.length → s.read_word ((off + j) % U) = Except.ok (v j)) →
        s.read_words off buf = (Except.ok (), (List.range buf.length).map v)) := by
  constructor
  · intro h
    simp [Storage.read_words, h]
  · intro h v hv
    have hloop := read_words_loop_ok s off v buf 0 (by
      intro j hj
      simpa using hv j hj)
    rw [Storage.read_words, if_neg (not_le.mpr h)]
    simpa using hloop

theorem read_words_bounds_check_witness :
    (Storage.read_words (⟨2, 2, fun n => Except.ok (n + 100)⟩ : Storage Nat Unit) 1 [0, 0] =
      (Except.ok (), [101, 102])) ∧
    (Storage.read_words (⟨2, 2, fun n => Except.ok (n + 100)⟩ : Storage Nat Unit) 3 [0, 0] =
      (Except.error (ReadError.OutOfRange 4 4), [0, 0])) := by
  constructor
  · have h := (read_words_bounds_check
      (⟨2, 2, fun n => Except.ok (n + 100)⟩ : Storage Nat Unit) 1 [0, 0]
      (by simp)).2 (by decide) (fun j => j + 101) (by
        intro j hj
        simp only [List.length_cons, List.length_nil] at hj
        interval_cases j <;> rfl)
    simpa using h
  · have h := (read_words_bounds_check
      (⟨2, 2, fun n => Except.ok (n + 100)⟩ : Storage Nat Unit) 3 [0, 0]
      (by simp)).1 (by decide)
    simpa using h

/-- C9: in the default `read_words`, when the range check passes but
`read_word` fails at loop index `k > 0`, the error is propagated with the
caller's buffer already overwritten at positions `0 … k - 1` (with the
words read so far) while positions from `k` on keep their previous
contents: partial mutation is observable on errors other than the
up-front out-of-range rejection. -/
theorem read_words_partial_mutation {W E : Type} (s : Storage W E) (off : Nat)
    (buf : List W) (k : Nat) (v : Nat → W) (e : ReadError E)
    (hk : k < buf.length) (hk0 : 0 < k)
    (hrange : Storage.max_off off buf.length < s.capacity_in_words)
    (hok : ∀ j, j < k → s.read_word ((off + j) % U) = Except.ok (v j))
    (herr : s.read_word ((off + k) % U) = Except.error e) :
    s.read_words off buf =
      (Except.error e, ((List.range k).map v) ++ buf.drop k) := by
  have hloop := read_words_loop_err s off v e buf 0 k hk
    (by intro j hj; simpa using hok j hj)
    (by simpa using herr)
  rw [Storage.read_words, if_neg (not_le.mpr hrange)]
  simpa using hloop

theorem read_words_partial_mutation_witness :
    Storage.read_words
        (⟨2, 2, fun n => if n = 0 then Except.ok 7 else
          Except.error (ReadError.Uninitialized n)⟩ : Storage Nat Unit) 0 [10, 20, 30] =
      (Except.error (ReadError.Uninitialized 1), [7, 20, 30]) := by
  have h := read_words_partial_mutation
    (⟨2, 2, fun n => if n = 0 then Except.ok 7 else
      Except.error (ReadError.Uninitialized n)⟩ : Storage Nat Unit)
    0 [10, 20, 30] 1 (fun _ => 7) (ReadError.Uninitialized 1)
    (by decide) (by decide) (by decide)
    (by intro j hj; interval_cases j; rfl) (by rfl)
  simpa using h

/-! ## Claims about the `FileBackedStorage` constructors (`src/lib.rs`) -/

/-- C2 (status: code bug in the source).  `FileBackedStorage::new` sizes
the backing file to `S::to_u64() * size_in_sectors` — the sector count
times the sector size in *words* — never consulting `Word::NUM_BYTES`.
For the default 1-byte word this coincides with the specified
`sector_count × sector_length × word_width` (512 × 4 = 2048), but for a
2-byte word (`u16`) the file is 2048 bytes instead of the specified 4096;
the adapter's own `read_sector` then trips its `assert_eq!` (a panic) when
reading the last valid sector of a freshly created medium, because only
512 of the expected 1024 bytes are available. -/
theorem new_ignores_word_width :
    ((FileBackedStorage.new 512 4).map fun st => st.file.length) = some 2048 ∧
    2048 ≠ 512 * 4 * 2 ∧
    FileBackedStorage.read_sector 2 512 ⟨List.replicate 2048 0, 4⟩ 3 =
      Outcome.panicked := by
  refine ⟨?_, by norm_num, ?_⟩
  · rw [FileBackedStorage.new, new_len, if_pos (by norm_num [U])]
    simp only [Option.map_some', List.length_replicate]
  · rw [FileBackedStorage.read_sector, if_neg (by norm_num), if_pos (by norm_num [U]),
      if_neg (by
        simp only [List.length_take, List.length_drop, List.length_replicate]
        omega)]

/-- C3 (status: code bug in the source).  `FileBackedStorage::from_file`
checks `len % S::to_usize()` and divides by `S::to_usize()` — the sector
size in *words* — not by `sector_length × word_byte_width` as specified.
For a 2-byte word (`u16`) with 512-word sectors: a 512-byte file (not a
multiple of the 1024-byte sector) is accepted with capacity 1 instead of
being rejected, and a 1024-byte file is given capacity 2 instead of 1. -/
theorem from_file_ignores_word_width :
    FileBackedStorage.from_file 512 512 = Except.ok 1 ∧
    512 % (512 * 2) ≠ 0 ∧
    FileBackedStorage.from_file 512 1024 = Except.ok 2 ∧
    1024 / (512 * 2) = 1 := by
  refine ⟨rfl, by norm_num, rfl, by norm_num⟩

/-- C10: `from_file_with_explicit_size` first runs `from_file`
(propagating its `ErrorKind::InvalidInput` error with `?` whenever the
file length fails the divisibility check, `S = 0` included) and only
after that check succeeds overwrites the inferred sector count with the
caller's explicit one. -/
theorem from_file_with_explicit_size_still_checks (S len n : Nat) :
    (¬(S ≠ 0 ∧ len % S = 0) →
      FileBackedStorage.from_file_with_explicit_size S len n =
        Except.error (IoErr.invalidInput len S) ∧
      FileBackedStorage.from_file S len =
        Except.error (IoErr.invalidInput len S)) ∧
    ((S ≠ 0 ∧ len % S = 0) →
      FileBackedStorage.from_file_with_explicit_size S len n = Except.ok n) := by
  constructor
  · intro h
    constructor <;>
      simp [FileBackedStorage.from_file_with_explicit_size,
        FileBackedStorage.from_file, h]
  · intro h
    simp [FileBackedStorage.from_file_with_explicit_size,
      FileBackedStorage.from_file, h]

theorem from_file_with_explicit_size_still_checks_witness :
    (FileBackedStorage.from_file_with_explicit_size 512 1000 7 =
      Except.error (IoErr.invalidInput 1000 512) ∧
     FileBackedStorage.from_file 512 1000 =
      Except.error (IoErr.invalidInput 1000 512)) ∧
    FileBackedStorage.from_file_with_explicit_size 512 1024 7 = Except.ok 7 :=
  ⟨(from_file_with_explicit_size_still_checks 512 1000 7).1 (by decide),
   (from_file_with_explicit_size_still_checks 512 1024 7).2 (by decide)⟩

/-! ## Claims about overflow behaviour (C5) -/

/-- C5 (status: the claim fails on the source).  The default
`capacity_in_words` is a plain `*` on `usize`: at capacity `2 ^ 62`
sectors of 4 words the mathematical product is `2 ^ 64`, and the method
silently returns the wrapped value 0 — no error, no abort — corrupting
the addressing ceiling that `read_words` checks against. -/
theorem overflow_silently_wraps_counterexample :
    Storage.capacity_in_words (⟨2 ^ 62, 4, fun _ => Except.ok 0⟩ : Storage Nat Unit) = 0 ∧
    2 ^ 62 * 4 ≠ 0 := by
  refine ⟨rfl, by norm_num⟩

/-- C5 (amended).  Overflow checking in the source is confined to
`FileBackedStorage`: its seek-offset multiplications and `new`'s
`set_len` computation use `checked_mul`/`unwrap` and fail loudly (an
abort) whenever the product exceeds the machine range.  The trait's
default computations (`capacity_in_words`, and with it
`capacity_in_bytes`, `read_words`'s offset sums and `read_sector`'s
`sector_idx * SECTOR_SIZE`) are unchecked: under release-profile
semantics they wrap modulo `2 ^ 64`, so whenever
`capacity × sector_length` overflows, `capacity_in_words` silently
returns a value different from the true product. -/
theorem unchecked_wrap_vs_checked_seek {W E : Type} (s : Storage W E)
    (h : U ≤ s.capacity * s.sector_size) :
    s.capacity_in_words ≠ s.capacity * s.sector_size ∧
    (∀ (w S : Nat) (st : FileBackedStorage) (i : Nat) (ws : List Nat),
      U ≤ i * S → i < st.size_in_sectors →
      FileBackedStorage.write_sector w S st i ws = Outcome.panicked) ∧
    (∀ S n : Nat, U ≤ S * n → new_len S n = none) := by
  refine ⟨?_, ?_, ?_⟩
  · have hmod : s.capacity * s.sector_size % U < U :=
      Nat.mod_lt _ (by norm_num [U])
    intro heq
    rw [Storage.capacity_in_words] at heq
    omega
  · intro w S st i ws ho hi
    rw [FileBackedStorage.write_sector, if_neg (by omega), if_neg (by omega)]
  · intro S n h'
    rw [new_len, if_neg (by omega)]

theorem unchecked_wrap_vs_checked_seek_witness :
    Storage.capacity_in_words (⟨2 ^ 63, 4, fun _ => Except.ok 0⟩ : Storage Nat Unit) ≠
      2 ^ 63 * 4 ∧
    FileBackedStorage.write_sector 1 1024 ⟨[], 2 ^ 61⟩ (2 ^ 60) [] =
      Outcome.panicked ∧
    new_len (2 ^ 32) (2 ^ 32) = none := by
  have h := unchecked_wrap_vs_checked_seek
    (⟨2 ^ 63, 4, fun _ => Except.ok 0⟩ : Storage Nat Unit) (by norm_num [U])
  exact ⟨h.1,
    h.2.1 1 1024 ⟨[], 2 ^ 61⟩ (2 ^ 60) [] (by norm_num [U]) (by norm_num),
    h.2.2 (2 ^ 32) (2 ^ 32) (by norm_num [U])⟩

/-! ## The sector write/read identity (C8) -/

theorem encode_words_length (w : Nat) (vs : List Nat) :
    (encode_words w vs).length = vs.length * w := by
  induction vs with
  | nil => simp [encode_words]
  | cons v vs ih =>
    simp [encode_words, toLeBytes_length, ih]
    ring

theorem decode_loop_encode_words {w : Nat} (vs : List Nat)
    (h : ∀ v ∈ vs, v < 256 ^ w) :
    decode_loop w vs.length (encode_words w vs) = some vs := by
  induction vs with
  | nil => rfl
  | cons v vs ih =>
    have hv : v < 256 ^ w := h v (by simp)
    simp only [encode_words, List.length_cons, decode_loop,
      fromBytes_toLeBytes_append (encode_words w vs) hv]
    rw [ih (by intro x hx; exact h x (by simp [hx]))]
    rfl

theorem writeAt_drop (file : List Nat) (pos : Nat) (buf : List Nat) :
    (writeAt file pos buf).drop pos = buf ++ file.drop (pos + buf.length) := by
  have hlen : (file.take pos ++ List.replicate (pos - file.length) 0).length = pos := by
    simp only [List.length_append, List.length_take, List.length_replicate]
    omega
  rw [writeAt, List.drop_left' hlen]

/-- C8 (amended; see the counterexample below for why the overflow side
condition is needed).  For `FileBackedStorage`: for every sector index
`i < capacity()` whose byte-seek multiplication `i * S` does not overflow
`usize` — automatic for media constructed by `new` or `from_file`, whose
checked size computations bound `capacity() * S` by `2 ^ 64` — writing a
full sector of representable words and then reading the same sector
succeeds and returns exactly the words written. -/
theorem sector_write_read_identity (w S : Nat) (st : FileBackedStorage)
    (i : Nat) (words : List Nat)
    (hlen : words.length = S) (hvals : ∀ v ∈ words, v < 256 ^ w)
    (hi : i < st.size_in_sectors) (hov : i * S < U) :
    ∃ st2,
      FileBackedStorage.write_sector w S st i words = Outcome.ok st2 ∧
      FileBackedStorage.read_sector w S st2 i = Outcome.ok words := by
  have hbuflen : (encode_words w words).length = S * w := by
    rw [encode_words_length, hlen, Nat.mul_comm]
  refine ⟨⟨writeAt st.file (i * S) (encode_words w words), st.size_in_sectors⟩, ?_, ?_⟩
  · rw [FileBackedStorage.write_sector, if_neg (by omega), if_pos hov, if_pos hbuflen]
  · have hdrop : (writeAt st.file (i * S) (encode_words w words)).drop (i * S) =
        encode_words w words ++ st.file.drop (i * S + (encode_words w words).length) :=
      writeAt_drop st.file (i * S) (encode_words w words)
    have hdec : decode_loop w S (encode_words w words) = some words := by
      have h := decode_loop_encode_words words hvals
      rwa [hlen] at h
    rw [FileBackedStorage.read_sector, if_neg (not_le.mpr hi), if_pos hov]
    rw [show (⟨writeAt st.file (i * S) (encode_words w words),
        st.size_in_sectors⟩ : FileBackedStorage).file =
      writeAt st.file (i * S) (encode_words w words) from rfl]
    rw [hdrop, List.take_left' hbuflen, if_pos hbuflen, hdec]

/-- C8 (the unamended claim fails on the source).  Capacities are not
always bounded by the backing file: `from_file_with_explicit_size`
records any caller-asserted `size_in_sectors` (here `2 ^ 56`, after
opening an empty file, whose length 0 passes the divisibility check).
At the valid sector index `2 ^ 55 < 2 ^ 56` with 512-word one-byte-word
sectors, `sector_idx.checked_mul(S::to_usize())` is `2 ^ 64`, the
`unwrap` panics, and `write_sector` aborts instead of succeeding. -/
theorem sector_write_read_identity_counterexample :
    FileBackedStorage.from_file_with_explicit_size 512 0 (2 ^ 56) =
      Except.ok (2 ^ 56) ∧
    2 ^ 55 < 2 ^ 56 ∧
    FileBackedStorage.write_sector 1 512 ⟨[], 2 ^ 56⟩ (2 ^ 55)
      (List.replicate 512 0) = Outcome.panicked := by
  refine ⟨rfl, by norm_num, ?_⟩
  rw [FileBackedStorage.write_sector, if_neg (by norm_num), if_neg (by norm_num [U])]

theorem sector_write_read_identity_witness :
    ∃ st2,
      FileBackedStorage.write_sector 1 2 ⟨[], 4⟩ 1 [171, 5] = Outcome.ok st2 ∧
      FileBackedStorage.read_sector 1 2 st2 1 = Outcome.ok [171, 5] :=
  sector_write_read_identity 1 2 ⟨[], 4⟩ 1 [171, 5] (by decide) (by decide)
    (by decide) (by decide)

end StorageTraits
